import Mathlib

/-!
Shallow embedding of the STM M24C EEPROM driver (`src/eeprom_m24c.h`).

The driver talks to an abstract I2C transport (`I2C_M24C`).  We model the
observable behaviour of each driver method as the list of calls it makes to
the transport (`BusEvent`).  The transport's `IsStateError()` answers are an
oracle `errs : Nat → Bool`: within one operation, the k-th iteration of the
do/while retry loop consumes `errs (2*k)` for the check at the top of the
loop body and `errs (2*k + 1)` for the `while` condition.  The unbounded
do/while loop is modelled with explicit fuel; `none` means the loop did not
terminate within the given fuel.

Machine integers are modelled as `Nat` with explicit `% 2^w` exactly where
the C code performs a narrowing cast (`static_cast<uint8_t>`), and `% 65536`
where `uint16_t` arithmetic can wrap (`address += PAGE_SIZE` in `WriteBlock`).
The only instantiated geometry profile is M24C16 (`PAGE_SIZE = 16`,
`MEMORY_SIZE = 2048`).
-/

namespace EepromM24C

/-- `I2C_M24C::I2CMode`: transmission or reception mode. -/
inductive I2CMode where
  | TX
  | RX
deriving DecidableEq, Repr

/-- One observable call from the driver to the `I2C_M24C` transport. -/
inductive BusEvent where
  /-- `I2C_M24C::Init()` -/
  | init
  /-- `I2C_M24C::StartPolling(device_id, mode, set_pos_bit)`; the third
  argument defaults to `false` in the C++ interface. -/
  | startPolling (device_id : Nat) (mode : I2CMode) ( set_pos_bit : Bool)
  /-- `I2C_M24C::WriteByte(data)` -/
  | writeByte (data : Nat)
  /-- `I2C_M24C::ReadByte()` -/
  | readByte
  /-- `I2C_M24C::ReadHalfWord()` -/
  | readHalfWord
  /-- `I2C_M24C::ReadMultipleBytes(output, size)` -/
  | readMultipleBytes (size : Nat)
  /-- `I2C_M24C::Stop()` -/
  | stop
deriving DecidableEq, Repr

/-- `EepromModelTraits<M24C16>::PAGE_SIZE` -/
def PAGE_SIZE : Nat := 16

/-- `EepromModelTraits<M24C16>::MEMORY_SIZE` -/
def MEMORY_SIZE : Nat := 2048

/-- `EepromM24C::DEVICE_ID` -/
def DEVICE_ID : Nat := 0b10100000

/-- `EepromM24C::CHIP_ENABLE_ADRESS_MASK` -/
def CHIP_ENABLE_ADRESS_MASK : Nat := 0b00001110

/-- `EepromM24C::CHIP_ENABLE_ADRESS_SHIFT` -/
def CHIP_ENABLE_ADRESS_SHIFT : Nat := 7

/-- `EepromM24C::HandleDeviceSelectCode(address)`:
`DEVICE_ID | ((address >> CHIP_ENABLE_ADRESS_SHIFT) & CHIP_ENABLE_ADRESS_MASK)`. -/
def HandleDeviceSelectCode (address : Nat) : Nat :=
  DEVICE_ID ||| ((address >>> CHIP_ENABLE_ADRESS_SHIFT) &&& CHIP_ENABLE_ADRESS_MASK)

/-- The transport calls made by one iteration of the `do` body of
`EepromM24C::WriteByte(address, value)`: start in TX, the intra-device
address byte (`static_cast<uint8_t>(address)`), the data byte, stop. -/
def writeByteBody (address value : Nat) : List BusEvent :=
  [ BusEvent.startPolling (HandleDeviceSelectCode address) I2CMode.TX false,
    BusEvent.writeByte (address % 256),
    BusEvent.writeByte value,
    BusEvent.stop ]

/-- The transport calls made by one iteration of the `do` body of
`EepromM24C::WriteHalfWord(address, value)`: start in TX, the address byte,
`static_cast<uint8_t>(value)`, `static_cast<uint8_t>(value >> 8)`, stop. -/
def writeHalfWordBody (address value : Nat) : List BusEvent :=
  [ BusEvent.startPolling (HandleDeviceSelectCode address) I2CMode.TX false,
    BusEvent.writeByte (address % 256),
    BusEvent.writeByte (value % 256),
    BusEvent.writeByte ((value >>> 8) % 256),
    BusEvent.stop ]

/-- The transport calls made by one iteration of the `do` body of
`EepromM24C::WritePage(data, address, data_size)`: start in TX, the address
byte, then `data_size` data bytes `*(data + i)` for `i = 0 .. data_size - 1`,
then stop.  The buffer behind the `void*` pointer is modelled as
`data : Nat → Nat` giving the byte at each offset. -/
def writePageBody (data : Nat → Nat) (address data_size : Nat) : List BusEvent :=
  [ BusEvent.startPolling (HandleDeviceSelectCode address) I2CMode.TX false,
    BusEvent.writeByte (address % 256) ]
  ++ (List.range data_size).map (fun i => BusEvent.writeByte (data i))
  ++ [ BusEvent.stop ]

/-- The transport calls made by one iteration of the `do` body of
`EepromM24C::ReadByte(address)`: start in TX, the address byte, start again
in RX, then the transport's one-byte read (which itself issues the stop). -/
def readByteBody (address : Nat) : List BusEvent :=
  [ BusEvent.startPolling (HandleDeviceSelectCode address) I2CMode.TX false,
    BusEvent.writeByte (address % 256),
    BusEvent.startPolling (HandleDeviceSelectCode address) I2CMode.RX false,
    BusEvent.readByte ]

/-- The transport calls made by one iteration of the `do` body of
`EepromM24C::ReadHalfWord(address)`: start in TX with the POS bit argument
set (`StartPolling(device_code, TX, 1)`), the address byte, start again in
RX, then the transport's halfword read (which itself issues the stop). -/
def readHalfWordBody (address : Nat) : List BusEvent :=
  [ BusEvent.startPolling (HandleDeviceSelectCode address) I2CMode.TX true,
    BusEvent.writeByte (address % 256),
    BusEvent.startPolling (HandleDeviceSelectCode address) I2CMode.RX false,
    BusEvent.readHalfWord ]

/-- The transport calls made by one iteration of the `do` body of
`EepromM24C::ReadBlock(data, address, data_size)`: start in TX, the address
byte, start in RX, then `ReadMultipleBytes(data, data_size)`. -/
def readBlockBody (address data_size : Nat) : List BusEvent :=
  [ BusEvent.startPolling (HandleDeviceSelectCode address) I2CMode.TX false,
    BusEvent.writeByte (address % 256),
    BusEvent.startPolling (HandleDeviceSelectCode address) I2CMode.RX false,
    BusEvent.readMultipleBytes data_size ]

/-- The transport calls made by one iteration of the `do` body of
`EepromM24C::ErasePage(address)`: start in TX, the address byte, then
`PAGE_SIZE` bytes of `0xFF`, then stop. -/
def erasePageBody (address : Nat) : List BusEvent :=
  [ BusEvent.startPolling (HandleDeviceSelectCode address) I2CMode.TX false,
    BusEvent.writeByte (address % 256) ]
  ++ (List.range PAGE_SIZE).map (fun _ => BusEvent.writeByte 0xFF)
  ++ [ BusEvent.stop ]

/-- The transport calls made by the k-th iteration of a driver do/while
retry loop with per-iteration transaction `body`: if `IsStateError()` at the
top of the loop body (`errs (2*k)`) reports an error, `Init()` is called
first; then the whole transaction is issued. -/
def iterEvents (body : List BusEvent) (errs : Nat → Bool) (k : Nat) : List BusEvent :=
  (if errs (2*k) then [BusEvent.init] else []) ++ body

/-- Number of iterations the do/while retry loop performs, starting from
iteration index `k` with the given fuel.  The loop leaves after iteration
`j` exactly when the `while (i2c.IsStateError())` check `errs (2*j + 1)`
reports no error; `some n` means the loop ran iterations `k, …, n-1` and
then returned, `none` means the fuel ran out with the error state still
set after every attempt. -/
def retryCount (errs : Nat → Bool) : Nat → Nat → Option Nat
  | 0, _ => none
  | fuel + 1, k =>
      if errs (2*k + 1) then retryCount errs fuel (k + 1) else some (k + 1)

/-- Full transport-call trace of one driver operation whose per-iteration
transaction is `body`, under `IsStateError` oracle `errs`. -/
def runRetry (body : List BusEvent) (errs : Nat → Bool) (fuel : Nat) :
    Option (List BusEvent) :=
  (retryCount errs fuel 0).map
    (fun n => ((List.range n).map (iterEvents body errs)).flatten)

/-- `EepromM24C::WriteByte(address, value)` as a transport-call trace. -/
def writeByteRun (address value : Nat) (errs : Nat → Bool) (fuel : Nat) :
    Option (List BusEvent) :=
  runRetry (writeByteBody address value) errs fuel

/-- `EepromM24C::WriteHalfWord(address, value)` as a transport-call trace. -/
def writeHalfWordRun (address value : Nat) (errs : Nat → Bool) (fuel : Nat) :
    Option (List BusEvent) :=
  runRetry (writeHalfWordBody address value) errs fuel

/-- `EepromM24C::WritePage(data, address, data_size)` as a transport-call
trace. -/
def writePageRun (data : Nat → Nat) (address data_size : Nat)
    (errs : Nat → Bool) (fuel : Nat) : Option (List BusEvent) :=
  runRetry (writePageBody data address data_size) errs fuel

/-- `EepromM24C::ReadByte(address)` as a transport-call trace together with
the returned byte.  `reads k` is the value the transport's `ReadByte()`
primitive delivers in iteration `k`; the value returned to the caller is
the one read in the final iteration. -/
def readByteRun (address : Nat) (errs : Nat → Bool) (reads : Nat → Nat)
    (fuel : Nat) : Option (List BusEvent × Nat) :=
  (retryCount errs fuel 0).map
    (fun n => (((List.range n).map (iterEvents (readByteBody address) errs)).flatten,
               reads (n - 1)))

/-- `EepromM24C::ReadHalfWord(address)` as a transport-call trace together
with the returned halfword (`reads k` = iteration k's `ReadHalfWord()`
result). -/
def readHalfWordRun (address : Nat) (errs : Nat → Bool) (reads : Nat → Nat)
    (fuel : Nat) : Option (List BusEvent × Nat) :=
  (retryCount errs fuel 0).map
    (fun n => (((List.range n).map (iterEvents (readHalfWordBody address) errs)).flatten,
               reads (n - 1)))

/-- `EepromM24C::ReadBlock(data, address, data_size)` as a transport-call
trace. -/
def readBlockRun (address data_size : Nat) (errs : Nat → Bool) (fuel : Nat) :
    Option (List BusEvent) :=
  runRetry (readBlockBody address data_size) errs fuel

/-- `EepromM24C::ErasePage(address)` as a transport-call trace. -/
def erasePageRun (address : Nat) (errs : Nat → Bool) (fuel : Nat) :
    Option (List BusEvent) :=
  runRetry (erasePageBody address) errs fuel

/-- The `while (remaining_full_pages >= 1)` loop of
`EepromM24C::WriteBlock` followed by the trailing
`WritePage(data, address, data_size % PAGE_SIZE)` call.  Each emitted
triple `(offset, address, size)` is one `WritePage` call: the data-pointer
offset from the start of the caller's buffer, the (uint16, hence
`% 65536`) start address, and the byte count.  `tail_size` is the
already-computed `data_size % PAGE_SIZE`; the recursion counter is
`remaining_full_pages`. -/
def writeBlockLoop (tail_size : Nat) : Nat → Nat → Nat → List (Nat × Nat × Nat)
  | 0, offset, address => [(offset, address, tail_size)]
  | n + 1, offset, address =>
      (offset, address, PAGE_SIZE) ::
        writeBlockLoop tail_size n (offset + PAGE_SIZE) ((address + PAGE_SIZE) % 65536)

/-- The sequence of `WritePage` calls issued by
`EepromM24C::WriteBlock(data, address, data_size)`, as
`(data offset, address, size)` triples. -/
def writeBlockCalls (address data_size : Nat) : List (Nat × Nat × Nat) :=
  writeBlockLoop (data_size % PAGE_SIZE) (data_size / PAGE_SIZE) 0 address

/-- The loop `for (int i = 0; i < MEMORY_SIZE; i += PAGE_SIZE)` of
`EepromM24C::ChipErase`, collecting the addresses passed to `ErasePage`.
The first argument is fuel bounding the number of iterations; the guard
`i < MEMORY_SIZE` is what actually ends the loop. -/
def chipEraseLoop : Nat → Nat → List Nat
  | 0, _ => []
  | fuel + 1, i =>
      if i < MEMORY_SIZE then i :: chipEraseLoop fuel (i + PAGE_SIZE) else []

/-- The addresses `EepromM24C::ChipErase()` passes to `ErasePage`, in
order.  `MEMORY_SIZE` fuel is enough: `i` grows by `PAGE_SIZE ≥ 1` each
iteration, so the guard fails after at most `MEMORY_SIZE` iterations. -/
def chipEraseAddresses : List Nat := chipEraseLoop MEMORY_SIZE 0

/-- The `StartPolling` calls of a trace whose `set_pos_bit` argument is
`true` (every other kind of event is dropped). -/
def posBitStarts (l : List BusEvent) : List BusEvent :=
  l.filter (fun e =>
    match e with
    | BusEvent.startPolling _ _ true => true
    | _ => false)

end EepromM24C

namespace EepromM24C

lemma retryCount_pos (errs : Nat → Bool) :
    ∀ fuel k n, retryCount errs fuel k = some n → k < n := by
  intro fuel
  induction fuel with
  | zero => intro k n h; simp [retryCount] at h
  | succ fuel ih =>
      intro k n h
      simp only [retryCount] at h
      by_cases hb : errs (2*k + 1) = true
      · rw [if_pos hb] at h
        exact Nat.lt_of_succ_lt (ih (k + 1) n h)
      · rw [if_neg hb] at h
        injection h with h
        omega

lemma retryCount_last (errs : Nat → Bool) :
    ∀ fuel k n, retryCount errs fuel k = some n → errs (2*(n - 1) + 1) = false := by
  intro fuel
  induction fuel with
  | zero => intro k n h; simp [retryCount] at h
  | succ fuel ih =>
      intro k n h
      simp only [retryCount] at h
      by_cases hb : errs (2*k + 1) = true
      · rw [if_pos hb] at h
        exact ih (k + 1) n h
      · rw [if_neg hb] at h
        injection h with h
        subst h
        simpa using hb

lemma retryCount_mid (errs : Nat → Bool) :
    ∀ fuel k n, retryCount errs fuel k = some n →
      ∀ j, k ≤ j → j + 1 < n → errs (2*j + 1) = true := by
  intro fuel
  induction fuel with
  | zero => intro k n h; simp [retryCount] at h
  | succ fuel ih =>
      intro k n h j hkj hjn
      simp only [retryCount] at h
      by_cases hb : errs (2*k + 1) = true
      · rw [if_pos hb] at h
        rcases Nat.eq_or_lt_of_le hkj with rfl | hlt
        · exact hb
        · exact ih (k + 1) n h j hlt hjn
      · rw [if_neg hb] at h
        injection h with h
        omega

lemma retryCount_none (errs : Nat → Bool) (h : ∀ j, errs (2*j + 1) = true) :
    ∀ fuel k, retryCount errs fuel k = none := by
  intro fuel
  induction fuel with
  | zero => intro k; simp [retryCount]
  | succ fuel ih => intro k; simp only [retryCount, h k, if_pos]; exact ih (k + 1)

lemma retryCount_exit (errs : Nat → Bool) (m : Nat) (hm : errs (2*m + 1) = false)
    (hmid : ∀ j, j < m → errs (2*j + 1) = true) :
    ∀ d k, k ≤ m → m + 1 = k + d → retryCount errs d k = some (m + 1) := by
  intro d
  induction d with
  | zero => intro k hk he; omega
  | succ d ih =>
      intro k hk he
      simp only [retryCount]
      rcases Nat.eq_or_lt_of_le hk with rfl | hlt
      · rw [if_neg (by simp [hm])]
      · rw [if_pos (hmid k hlt)]
        exact ih (k + 1) hlt (by omega)

lemma retryCount_isSome (errs : Nat → Bool) :
    ∀ fuel k, (∃ j, k ≤ j ∧ j < k + fuel ∧ errs (2*j + 1) = false) →
      ∃ n, retryCount errs fuel k = some n := by
  intro fuel
  induction fuel with
  | zero => intro k ⟨j, h1, h2, _⟩; omega
  | succ fuel ih =>
      intro k ⟨j, h1, h2, h3⟩
      simp only [retryCount]
      by_cases hb : errs (2*k + 1) = true
      · rw [if_pos hb]
        apply ih (k + 1)
        rcases Nat.eq_or_lt_of_le h1 with rfl | hlt
        · rw [hb] at h3; cases h3
        · exact ⟨j, hlt, by omega, h3⟩
      · rw [if_neg hb]
        exact ⟨k + 1, rfl⟩

lemma and_14_eq_mod16_and (x : Nat) : x &&& 14 = x % 16 &&& 14 := by
  apply Nat.eq_of_testBit_eq
  intro i
  simp only [Nat.testBit_and]
  rcases lt_or_ge i 4 with hi | hi
  · have h16 : (16 : Nat) = 2 ^ 4 := by norm_num
    rw [h16, Nat.testBit_mod_two_pow]
    simp [hi]
  · have h14 : Nat.testBit 14 i = false :=
      Nat.testBit_lt_two_pow (lt_of_lt_of_le (by norm_num) (Nat.pow_le_pow_right (by norm_num) hi))
    simp [h14]

lemma selectCode_eq_of_mod (a b : Nat) (h : a % 2048 = b % 2048) :
    HandleDeviceSelectCode a = HandleDeviceSelectCode b := by
  unfold HandleDeviceSelectCode DEVICE_ID CHIP_ENABLE_ADRESS_MASK CHIP_ENABLE_ADRESS_SHIFT
  congr 1
  rw [and_14_eq_mod16_and (a >>> 7), and_14_eq_mod16_and (b >>> 7)]
  congr 1
  rw [Nat.shiftRight_eq_div_pow, Nat.shiftRight_eq_div_pow]
  norm_num
  rw [← Nat.mod_mul_right_div_self, ← Nat.mod_mul_right_div_self]
  norm_num
  rw [h]

lemma mod256_eq_of_mod (a b : Nat) (h : a % 2048 = b % 2048) : a % 256 = b % 256 := by
  have ha : a % 2048 % 256 = a % 256 := Nat.mod_mod_of_dvd a (by norm_num)
  have hb : b % 2048 % 256 = b % 256 := Nat.mod_mod_of_dvd b (by norm_num)
  rw [← ha, ← hb, h]

lemma writeBlockLoop_closed (t : Nat) :
    ∀ n offset address, address < 65536 →
      writeBlockLoop t n offset address =
        (List.range n).map
          (fun k => (offset + k * PAGE_SIZE, (address + k * PAGE_SIZE) % 65536, PAGE_SIZE))
        ++ [(offset + n * PAGE_SIZE, (address + n * PAGE_SIZE) % 65536, t)] := by
  intro n
  induction n with
  | zero =>
      intro offset address ha
      simp [writeBlockLoop, Nat.mod_eq_of_lt ha]
  | succ n ih =>
      intro offset address ha
      rw [writeBlockLoop,
          ih (offset + PAGE_SIZE) ((address + PAGE_SIZE) % 65536) (Nat.mod_lt _ (by norm_num)),
          List.range_succ_eq_map]
      simp only [List.map_cons, List.map_map, List.cons_append]
      congr 1
      · simp [Nat.mod_eq_of_lt ha]
      congr 1
      · apply List.map_congr_left
        intro k hk
        simp only [Function.comp_apply, Nat.succ_eq_add_one]
        refine Prod.ext ?_ (Prod.ext ?_ rfl)
        · simp [PAGE_SIZE]; ring
        · simp only [Nat.mod_add_mod]
          congr 1
          simp [PAGE_SIZE]; ring
      · refine congrArg (fun x => [x]) ?_
        refine Prod.ext ?_ (Prod.ext ?_ rfl)
        · simp [PAGE_SIZE]; ring
        · simp only [Nat.mod_add_mod]
          congr 1
          simp [PAGE_SIZE]; ring

lemma stop_not_mem_iter_flatten (body : List BusEvent) (hb : BusEvent.stop ∉ body)
    (errs : Nat → Bool) (n : Nat) :
    BusEvent.stop ∉ ((List.range n).map (iterEvents body errs)).flatten := by
  intro hmem
  rw [List.mem_flatten] at hmem
  obtain ⟨l, hl, hml⟩ := hmem
  rw [List.mem_map] at hl
  obtain ⟨k, _, rfl⟩ := hl
  unfold iterEvents at hml
  rw [List.mem_append] at hml
  rcases hml with h | h
  · split at h <;> simp at h
  · exact hb h

/-- C1 counterexample: the spec's table value for address `0x0080` is wrong.
Address `0x0080` has bits 8-10 clear, so
`0xA0 | ((0x0080 >> 7) & 0x0E) = 0xA0 | (1 & 0x0E) = 0xA0`, not `0xA2`. -/
theorem selectCode_0x0080_counterexample : HandleDeviceSelectCode 0x0080 ≠ 0xA2 := by
  decide

/-- C1 (amended): the device-select code equals
`fixed_device_type_code | ((address >> 7) & chip_enable_mask)` and is sent
(with the mode flag) as the first transport call of every transaction body;
for the M24C16 profile `select 0x0000 = 0xA0`, `select 0x0080 = 0xA0`,
`select 0x0100 = 0xA2`, `select 0x0780 = 0xAE`.  The derivation is a pure
function of the address alone (it is a Lean function of `address`). -/
theorem selectCode_derivation (address value data_size : Nat) (data : Nat → Nat) :
    HandleDeviceSelectCode address = 0b10100000 ||| ((address >>> 7) &&& 0b00001110)
    ∧ (writeByteBody address value).head? =
        some (BusEvent.startPolling (HandleDeviceSelectCode address) I2CMode.TX false)
    ∧ (writeHalfWordBody address value).head? =
        some (BusEvent.startPolling (HandleDeviceSelectCode address) I2CMode.TX false)
    ∧ (writePageBody data address data_size).head? =
        some (BusEvent.startPolling (HandleDeviceSelectCode address) I2CMode.TX false)
    ∧ (readByteBody address).head? =
        some (BusEvent.startPolling (HandleDeviceSelectCode address) I2CMode.TX false)
    ∧ (readHalfWordBody address).head? =
        some (BusEvent.startPolling (HandleDeviceSelectCode address) I2CMode.TX true)
    ∧ (readBlockBody address data_size).head? =
        some (BusEvent.startPolling (HandleDeviceSelectCode address) I2CMode.TX false)
    ∧ (erasePageBody address).head? =
        some (BusEvent.startPolling (HandleDeviceSelectCode address) I2CMode.TX false)
    ∧ HandleDeviceSelectCode 0x0000 = 0xA0
    ∧ HandleDeviceSelectCode 0x0080 = 0xA0
    ∧ HandleDeviceSelectCode 0x0100 = 0xA2
    ∧ HandleDeviceSelectCode 0x0780 = 0xAE := by
  refine ⟨rfl, rfl, rfl, ?_, rfl, rfl, rfl, ?_, by decide, by decide, by decide, by decide⟩
  · simp [writePageBody]
  · simp [erasePageBody]

/-- C2: `WriteBlock(data, address, data_size)` issues exactly
`data_size / PAGE_SIZE` full-page `WritePage` calls of exactly `PAGE_SIZE`
bytes, with both the data offset and the (uint16) address advancing by
`PAGE_SIZE` per iteration, followed by exactly one final `WritePage` call
of `data_size % PAGE_SIZE` bytes; in particular, 33 bytes at address 0
give exactly 3 page transactions of sizes 16, 16, 1. -/
theorem writeBlock_segmentation (address data_size : Nat)
    (h16 : address < 65536) (hal : address % PAGE_SIZE = 0) :
    writeBlockCalls address data_size =
      (List.range (data_size / PAGE_SIZE)).map
        (fun k => (k * PAGE_SIZE, (address + k * PAGE_SIZE) % 65536, PAGE_SIZE))
      ++ [(data_size / PAGE_SIZE * PAGE_SIZE,
           (address + data_size / PAGE_SIZE * PAGE_SIZE) % 65536,
           data_size % PAGE_SIZE)]
    ∧ (writeBlockCalls 0 33).map (fun c => c.2.2) = [16, 16, 1] := by
  refine ⟨?_, by decide⟩
  rw [writeBlockCalls, writeBlockLoop_closed (data_size % PAGE_SIZE) (data_size / PAGE_SIZE) 0 address h16]
  simp

/-- C2 witness at `address = 0`, `data_size = 33`. -/
theorem writeBlock_segmentation_witness :
    (0 : Nat) < 65536 ∧ 0 % PAGE_SIZE = 0
    ∧ (writeBlockCalls 0 33).map (fun c => c.2.2) = [16, 16, 1] :=
  ⟨by decide, by decide, (writeBlock_segmentation 0 33 (by decide) (by decide)).2⟩

/-- C3: under any `IsStateError` oracle, a run of `WriteByte` (and, via the
generic conjunct, of every operation built on the shared do/while wrapper)
consists of `n` iterations; iteration `k` calls `Init` first exactly when
the pre-transaction check `errs (2*k)` reports an error, then re-issues the
entire transaction, starting with the device-select code derived from the
address; the loop ends exactly at the first iteration whose post-transaction
check reports no error, and the retry count is unbounded (for every `N`
there is an oracle forcing `N + 1` iterations). -/
theorem retry_discipline (address value : Nat) (errs : Nat → Bool) (fuel n : Nat)
    (h : retryCount errs fuel 0 = some n) :
    writeByteRun address value errs fuel =
      some (((List.range n).map (fun k =>
        (if errs (2*k) then [BusEvent.init] else [])
          ++ [BusEvent.startPolling (HandleDeviceSelectCode address) I2CMode.TX false,
              BusEvent.writeByte (address % 256),
              BusEvent.writeByte value,
              BusEvent.stop])).flatten)
    ∧ (∀ body, runRetry body errs fuel =
        some (((List.range n).map (iterEvents body errs)).flatten))
    ∧ 1 ≤ n
    ∧ errs (2*(n - 1) + 1) = false
    ∧ (∀ k, k + 1 < n → errs (2*k + 1) = true)
    ∧ (∀ N, retryCount (fun i => decide (i < 2*N)) (N + 1) 0 = some (N + 1)) := by
  refine ⟨?_, ?_, ?_, retryCount_last errs fuel 0 n h,
          fun k hk => retryCount_mid errs fuel 0 n h k (Nat.zero_le k) hk, ?_⟩
  · simp [writeByteRun, runRetry, h, writeByteBody]
    rfl
  · intro body
    simp [runRetry, h]
  · have := retryCount_pos errs fuel 0 n h
    omega
  · intro N
    apply retryCount_exit (fun i => decide (i < 2*N)) N
    · simp
    · intro j hj
      simp only [decide_eq_true_eq]
      omega
    · omega
    · omega

/-- C3 witness: an oracle with an error on the first attempt only; the run
takes exactly 2 iterations and the final check reports no error. -/
theorem retry_discipline_witness :
    retryCount (fun i => decide (i < 2)) 2 0 = some 2
    ∧ (fun i : Nat => decide (i < 2)) (2*(2 - 1) + 1) = false :=
  ⟨by decide, (retry_discipline 5 7 (fun i => decide (i < 2)) 2 2 (by decide)).2.2.2.1⟩

/-- C8: no operation surfaces an error (the model returns `none` only when
the fuel bound on the unbounded loop is exhausted, never an error value);
if the transport reports an error after every attempt, every operation
loops forever (diverges for every fuel); a run returns exactly when an
iteration of the retry loop ends with `IsStateError` reporting `false`:
the final iteration's post-check is `false`, and whenever some post-check
is `false` the loop does terminate. -/
theorem silent_unbounded_retry (errs : Nat → Bool) :
    ((∀ j, errs (2*j + 1) = true) →
        (∀ fuel, retryCount errs fuel 0 = none)
        ∧ (∀ address value fuel, writeByteRun address value errs fuel = none)
        ∧ (∀ address value fuel, writeHalfWordRun address value errs fuel = none)
        ∧ (∀ data address data_size fuel, writePageRun data address data_size errs fuel = none)
        ∧ (∀ address reads fuel, readByteRun address errs reads fuel = none)
        ∧ (∀ address reads fuel, readHalfWordRun address errs reads fuel = none)
        ∧ (∀ address data_size fuel, readBlockRun address data_size errs fuel = none)
        ∧ (∀ address fuel, erasePageRun address errs fuel = none))
    ∧ (∀ fuel n, retryCount errs fuel 0 = some n → 1 ≤ n ∧ errs (2*(n - 1) + 1) = false)
    ∧ (∀ m, errs (2*m + 1) = false → ∃ n, retryCount errs (m + 1) 0 = some n) := by
  refine ⟨fun hall => ?_, fun fuel n h => ?_, fun m hm => ?_⟩
  · have hn := retryCount_none errs hall
    exact ⟨fun fuel => hn fuel 0,
           fun a v fuel => by simp [writeByteRun, runRetry, hn fuel 0],
           fun a v fuel => by simp [writeHalfWordRun, runRetry, hn fuel 0],
           fun d a s fuel => by simp [writePageRun, runRetry, hn fuel 0],
           fun a r fuel => by simp [readByteRun, hn fuel 0],
           fun a r fuel => by simp [readHalfWordRun, hn fuel 0],
           fun a s fuel => by simp [readBlockRun, runRetry, hn fuel 0],
           fun a fuel => by simp [erasePageRun, runRetry, hn fuel 0]⟩
  · have := retryCount_pos errs fuel 0 n h
    exact ⟨by omega, retryCount_last errs fuel 0 n h⟩
  · exact retryCount_isSome errs (m + 1) 0 ⟨m, Nat.zero_le m, by omega, hm⟩

/-- C8 witness: under the always-error oracle, `WriteByte` diverges for
fuel 3, and under the never-error oracle the loop exits after the first
iteration. -/
theorem silent_unbounded_retry_witness :
    ((fun _ : Nat => true) (2*0 + 1) = true)
    ∧ writeByteRun 0 0 (fun _ => true) 3 = none :=
  ⟨rfl, ((silent_unbounded_retry (fun _ => true)).1 (fun _ => rfl)).2.1 0 0 3⟩

/-- C4: `ChipErase` iterates every page-aligned offset from 0 up to
`MEMORY_SIZE` in steps of `PAGE_SIZE`, issuing `ErasePage` for each: for
the 2048-byte / 16-byte-page profile that is exactly 128 page-erase calls
at addresses `0, 16, …, 2032`, each of whose transactions writes
`PAGE_SIZE` bytes of the fixed erase value `0xFF`, so every page-aligned
offset of the device is covered. -/
theorem chipErase_coverage :
    chipEraseAddresses = (List.range (MEMORY_SIZE / PAGE_SIZE)).map (fun k => k * PAGE_SIZE)
    ∧ chipEraseAddresses.length = 128
    ∧ (∀ address, erasePageBody address =
        [BusEvent.startPolling (HandleDeviceSelectCode address) I2CMode.TX false,
         BusEvent.writeByte (address % 256)]
        ++ List.replicate PAGE_SIZE (BusEvent.writeByte 0xFF)
        ++ [BusEvent.stop])
    ∧ (∀ off, off < MEMORY_SIZE → off % PAGE_SIZE = 0 → off ∈ chipEraseAddresses) := by
  have hlist : chipEraseAddresses = (List.range 128).map (fun k => k * 16) := by decide
  refine ⟨?_, ?_, ?_, ?_⟩
  · rw [hlist]; rfl
  · rw [hlist]; simp
  · intro address
    simp [erasePageBody, PAGE_SIZE, List.replicate, List.range_succ]
  · intro off h1 h2
    rw [hlist]
    simp only [List.mem_map, List.mem_range]
    refine ⟨off / 16, ?_, ?_⟩
    · simp only [MEMORY_SIZE] at h1; omega
    · simp only [PAGE_SIZE] at h2; omega

/-- C4 witness: offset 2032 is page-aligned, below `MEMORY_SIZE`, and is one
of the erased addresses. -/
theorem chipErase_coverage_witness :
    2032 < MEMORY_SIZE ∧ 2032 % PAGE_SIZE = 0 ∧ 2032 ∈ chipEraseAddresses :=
  ⟨by decide, by decide, chipErase_coverage.2.2.2 2032 (by decide) (by decide)⟩

/-- C5: `WriteHalfWord(address, value)` issues one transmit transaction:
the intra-device address byte (low 8 bits of the address), then the two
data bytes in little-endian order — `static_cast<uint8_t>(value)` (low
byte) first, then `static_cast<uint8_t>(value >> 8)` (high byte) — then a
stop; for any 16-bit value, low byte plus 256 times the high byte
reconstructs the value, which is the little-endian assembly the
transport's `ReadHalfWord` primitive is documented to perform. -/
theorem writeHalfWord_little_endian (address value : Nat) (h : value < 65536) :
    writeHalfWordBody address value =
      [BusEvent.startPolling (HandleDeviceSelectCode address) I2CMode.TX false,
       BusEvent.writeByte (address % 256),
       BusEvent.writeByte (value % 256),
       BusEvent.writeByte ((value >>> 8) % 256),
       BusEvent.stop]
    ∧ value % 256 + 256 * ((value >>> 8) % 256) = value := by
  refine ⟨rfl, ?_⟩
  rw [Nat.shiftRight_eq_div_pow]
  norm_num
  omega

/-- C5 witness at `value = 0xBEEF`: the wire bytes are `0xEF` then `0xBE`,
and they reassemble to `0xBEEF`. -/
theorem writeHalfWord_little_endian_witness :
    (0xBEEF : Nat) < 65536
    ∧ 0xBEEF % 256 + 256 * ((0xBEEF >>> 8) % 256) = 0xBEEF :=
  ⟨by decide, (writeHalfWord_little_endian 3 0xBEEF (by decide)).2⟩

/-- C7: a `WritePage` with `data_size == 0` degenerates to a transaction of
only the device-select start, the address byte and the stop condition (no
data bytes), and this is exactly the final `WritePage` call `WriteBlock`
issues when `data_size` is a multiple of `PAGE_SIZE`: its last call has
byte count 0. -/
theorem zero_length_page_write (data : Nat → Nat) (address data_size : Nat)
    (h : data_size % PAGE_SIZE = 0) (h16 : address < 65536) :
    writePageBody data address 0 =
      [BusEvent.startPolling (HandleDeviceSelectCode address) I2CMode.TX false,
       BusEvent.writeByte (address % 256),
       BusEvent.stop]
    ∧ (writeBlockCalls address data_size).getLast? =
        some (data_size / PAGE_SIZE * PAGE_SIZE,
              (address + data_size / PAGE_SIZE * PAGE_SIZE) % 65536, 0) := by
  refine ⟨rfl, ?_⟩
  rw [writeBlockCalls,
      writeBlockLoop_closed (data_size % PAGE_SIZE) (data_size / PAGE_SIZE) 0 address h16,
      h]
  simp [List.getLast?_concat]

/-- C7 witness: writing 32 bytes (an exact multiple of the page size) at
address 0 ends with a zero-length page write at address 32. -/
theorem zero_length_page_write_witness :
    32 % PAGE_SIZE = 0 ∧ (0 : Nat) < 65536
    ∧ (writeBlockCalls 0 32).getLast? = some (32 / PAGE_SIZE * PAGE_SIZE,
        (0 + 32 / PAGE_SIZE * PAGE_SIZE) % 65536, 0) :=
  ⟨by decide, by decide, (zero_length_page_write (fun _ => 0) 0 32 (by decide) (by decide)).2⟩

/-- C6: `ReadByte` and `ReadHalfWord` each send a transmit-phase start and
the intra-device address byte with no stop, then re-start the bus in
receive mode and end with the transport's read primitive (which itself
issues the stop); the driver never calls `Stop()` in a read: no `stop`
event occurs in the bodies, nor anywhere in a full (retried) run. -/
theorem read_transactions_no_stop (address : Nat) (errs : Nat → Bool)
    (reads : Nat → Nat) (fuel : Nat) :
    readByteBody address =
      [BusEvent.startPolling (HandleDeviceSelectCode address) I2CMode.TX false,
       BusEvent.writeByte (address % 256),
       BusEvent.startPolling (HandleDeviceSelectCode address) I2CMode.RX false,
       BusEvent.readByte]
    ∧ readHalfWordBody address =
      [BusEvent.startPolling (HandleDeviceSelectCode address) I2CMode.TX true,
       BusEvent.writeByte (address % 256),
       BusEvent.startPolling (HandleDeviceSelectCode address) I2CMode.RX false,
       BusEvent.readHalfWord]
    ∧ BusEvent.stop ∉ readByteBody address
    ∧ BusEvent.stop ∉ readHalfWordBody address
    ∧ (∀ tr v, readByteRun address errs reads fuel = some (tr, v) → BusEvent.stop ∉ tr)
    ∧ (∀ tr v, readHalfWordRun address errs reads fuel = some (tr, v) → BusEvent.stop ∉ tr) := by
  refine ⟨rfl, rfl, by simp [readByteBody], by simp [readHalfWordBody], ?_, ?_⟩
  · intro tr v h
    rw [readByteRun, Option.map_eq_some'] at h
    obtain ⟨n, _, hpair⟩ := h
    have htr : ((List.range n).map (iterEvents (readByteBody address) errs)).flatten = tr :=
      congrArg Prod.fst hpair
    rw [← htr]
    exact stop_not_mem_iter_flatten (readByteBody address) (by simp [readByteBody]) errs n
  · intro tr v h
    rw [readHalfWordRun, Option.map_eq_some'] at h
    obtain ⟨n, _, hpair⟩ := h
    have htr : ((List.range n).map (iterEvents (readHalfWordBody address) errs)).flatten = tr :=
      congrArg Prod.fst hpair
    rw [← htr]
    exact stop_not_mem_iter_flatten (readHalfWordBody address) (by simp [readHalfWordBody]) errs n

/-- C6 witness: an error-free single-iteration run of `ReadByte 0` whose
trace, produced by the theorem, contains no stop event. -/
theorem read_transactions_no_stop_witness :
    readByteRun 0 (fun _ => false) (fun _ => 0) 1 =
      some ([BusEvent.startPolling 0xA0 I2CMode.TX false,
             BusEvent.writeByte 0,
             BusEvent.startPolling 0xA0 I2CMode.RX false,
             BusEvent.readByte], 0)
    ∧ BusEvent.stop ∉
        [BusEvent.startPolling (0xA0 : Nat) I2CMode.TX false,
         BusEvent.writeByte 0,
         BusEvent.startPolling 0xA0 I2CMode.RX false,
         BusEvent.readByte] :=
  ⟨by decide,
   (read_transactions_no_stop 0 (fun _ => false) (fun _ => 0) 1).2.2.2.2.1
     [BusEvent.startPolling 0xA0 I2CMode.TX false,
      BusEvent.writeByte 0,
      BusEvent.startPolling 0xA0 I2CMode.RX false,
      BusEvent.readByte] 0 (by decide)⟩

/-- C9: the transaction addressing of every operation depends only on the
address modulo 2048: the select code uses only address bits 8-10 and the
address byte only bits 0-7, so any two addresses (in range or not)
congruent modulo 2048 yield the same select code, the same address byte,
and identical per-iteration transaction bodies for every operation. -/
theorem addressing_depends_on_mod_2048 (a b value data_size : Nat) (data : Nat → Nat)
    (h : a % 2048 = b % 2048) :
    HandleDeviceSelectCode a = HandleDeviceSelectCode b
    ∧ a % 256 = b % 256
    ∧ writeByteBody a value = writeByteBody b value
    ∧ writeHalfWordBody a value = writeHalfWordBody b value
    ∧ writePageBody data a data_size = writePageBody data b data_size
    ∧ readByteBody a = readByteBody b
    ∧ readHalfWordBody a = readHalfWordBody b
    ∧ readBlockBody a data_size = readBlockBody b data_size
    ∧ erasePageBody a = erasePageBody b := by
  have hsel := selectCode_eq_of_mod a b h
  have hm := mod256_eq_of_mod a b h
  exact ⟨hsel, hm,
    by simp [writeByteBody, hsel, hm],
    by simp [writeHalfWordBody, hsel, hm],
    by simp [writePageBody, hsel, hm],
    by simp [readByteBody, hsel, hm],
    by simp [readHalfWordBody, hsel, hm],
    by simp [readBlockBody, hsel, hm],
    by simp [erasePageBody, hsel, hm]⟩

/-- C9 witness: 2053 = 2048 + 5 is out of range but congruent to 5 modulo
2048, and gets the same device-select code as 5. -/
theorem addressing_depends_on_mod_2048_witness :
    2053 % 2048 = 5 % 2048 ∧ HandleDeviceSelectCode 2053 = HandleDeviceSelectCode 5 :=
  ⟨by decide, (addressing_depends_on_mod_2048 2053 5 0 0 (fun _ => 0) (by decide)).1⟩

/-- C10: the only `StartPolling` call anywhere in the driver that passes
the extended-addressing flag (`set_pos_bit`) as `true` is the
transmit-phase call of `ReadHalfWord`; every other `StartPolling` call in
every operation — including `WriteHalfWord` and `ReadHalfWord`'s own
receive-phase call — leaves the flag at its default `false`. -/
theorem pos_bit_only_in_readHalfWord (address value data_size : Nat) (data : Nat → Nat) :
    posBitStarts (readHalfWordBody address) =
      [BusEvent.startPolling (HandleDeviceSelectCode address) I2CMode.TX true]
    ∧ posBitStarts (writeByteBody address value) = []
    ∧ posBitStarts (writeHalfWordBody address value) = []
    ∧ posBitStarts (writePageBody data address data_size) = []
    ∧ posBitStarts (readByteBody address) = []
    ∧ posBitStarts (readBlockBody address data_size) = []
    ∧ posBitStarts (erasePageBody address) = [] := by
  refine ⟨rfl, rfl, rfl, ?_, rfl, rfl, ?_⟩
  · simp only [posBitStarts, writePageBody, List.filter_append, List.filter_map]
    simp [List.filter_eq_nil_iff, Function.comp]
  · simp only [posBitStarts, erasePageBody, List.filter_append, List.filter_map]
    simp [List.filter_eq_nil_iff, Function.comp]

end EepromM24C
